import Mathlib

/-!
Verification of the pipeline-executor pattern specified for this repository.
The repository itself only exhibits call sites of an external classification
library; the spec describes the orchestration core (PipelineRunner) that those
call sites exercise.  All definitions below are therefore modelled from the
spec's words, as the executable code of fit / predict / score is not part of
the repository's sources.
-/

namespace SktimePipeline

/-- Modelled from the spec: one observation of a time series.  The spec calls
observations real-valued; the numeric carrier is irrelevant to every claim
here, so observations are modelled as integers to keep everything decidable. -/
abbrev Obs := Int

/-- Modelled from the spec: an instance is an ordered sequence of observations
(the univariate, possibly variable-length case of the spec's data model). -/
abbrev Instance := List Obs

/-- Modelled from the spec: a Dataset is a collection of instances. -/
abbrev Dataset := List Instance

/-- Modelled from the spec: a Label is one categorical value per instance. -/
abbrev Label := Nat

/-- Modelled from the spec: the Label collection parallel to a Dataset. -/
abbrev Labels := List Label

/-- Modelled from the spec: a Transformer maps a dataset to a transformed
dataset; it is fitted once on training data and the fitted transform is then
reused at inference.  Fitting is modelled as returning the fitted transform. -/
structure Transformer where
  fit : Dataset → (Dataset → Dataset)

/-- Modelled from the spec: an Estimator maps a dataset to label predictions;
fitting it on training data and labels returns the fitted predict step. -/
structure Estimator where
  fit : Dataset → Labels → (Dataset → Labels)

/-- Modelled from the spec: a stage's polymorphic unit is either a Transformer
or an Estimator. -/
inductive StageUnit where
  | transformer : Transformer → StageUnit
  | estimator : Estimator → StageUnit

/-- Modelled from the spec: a Stage is a name plus a polymorphic unit. -/
abbrev Stage := String × StageUnit

/-- Modelled from the spec: the three error kinds of the error-handling
design: ConfigurationError (malformed stage list), NotFittedError
(use-before-fit), ShapeMismatchError (count mismatch). -/
inductive PipeError where
  | ConfigurationError
  | NotFittedError
  | ShapeMismatchError
deriving DecidableEq

/-- Modelled from the spec: the fitted parameters held privately by the
pipeline after fit: the fitted transform of each Transformer stage, in stage
order, and the fitted predict step of the final Estimator. -/
structure FittedState where
  transforms : List (Dataset → Dataset)
  predictFn : Dataset → Labels

/-- Modelled from the spec: the PipelineRunner holds an ordered sequence of
named stages, plus the fitted parameters once fit has been called. -/
structure Pipeline where
  stages : List Stage
  fitted : Option FittedState

/-- Modelled from the spec: constructing a pipeline from a stage list; fit has
not yet been called on it. -/
def Pipeline.ofStages (stages : List Stage) : Pipeline := ⟨stages, none⟩

/-- Modelled from the spec: the fitting pass over the stage list.  It applies
each Transformer stage in order (fitting it on the current intermediate
dataset, then transforming), then fits the final Estimator on the fully
transformed dataset and labels.  It fails with ConfigurationError if the stage
list is empty or the final stage is not an Estimator. -/
def fitRun : List Stage → Dataset → Labels → Except PipeError FittedState
  | [], _, _ => .error .ConfigurationError
  | [(_, .transformer _)], _, _ => .error .ConfigurationError
  | [(_, .estimator e)], X, y => .ok ⟨[], e.fit X y⟩
  | (_, .transformer t) :: s :: rest, X, y =>
    (fitRun (s :: rest) (t.fit X X) y).map fun st => ⟨t.fit X :: st.transforms, st.predictFn⟩
  | (_, .estimator _) :: s :: rest, X, y => fitRun (s :: rest) X y

/-- Modelled from the spec: fit(trainDataset, trainLabels) runs the fitting
pass over the stages and stores the fitted parameters in the pipeline. -/
def Pipeline.fit (p : Pipeline) (X : Dataset) (y : Labels) : Except PipeError Pipeline :=
  (fitRun p.stages X y).map fun st => { p with fitted := some st }

/-- Applying a list of fitted transforms to a dataset, in list order. -/
def applyInOrder (fts : List (Dataset → Dataset)) (X : Dataset) : Dataset :=
  fts.foldl (fun D f => f D) X

/-- Modelled from the spec: the inference pass applies each fitted
Transformer's transform step in the same order used during fit, then calls the
fitted Estimator's predict step. -/
def FittedState.predictRun (st : FittedState) (X : Dataset) : Labels :=
  st.predictFn (applyInOrder st.transforms X)

/-- Modelled from the spec: predict(testDataset) fails with NotFittedError if
invoked before fit, and otherwise runs the inference pass on the stored fitted
parameters. -/
def Pipeline.predict (p : Pipeline) (X : Dataset) : Except PipeError Labels :=
  match p.fitted with
  | none => .error .NotFittedError
  | some st => .ok (st.predictRun X)

/-- Modelled from the spec: accuracy as the fraction of exact label matches
between the true labels and the predicted labels, position by position. -/
def accuracy_score (yTrue yPred : Labels) : ℚ :=
  (((yTrue.zip yPred).countP fun q => q.1 == q.2 : ℚ)) / (yTrue.length : ℚ)

/-- Modelled from the spec: score(testDataset, testLabels) runs predict, then
computes accuracy; it fails with ShapeMismatchError if the prediction count
differs from the label count, and any predict error propagates unchanged. -/
def Pipeline.score (p : Pipeline) (X : Dataset) (y : Labels) : Except PipeError ℚ :=
  match p.predict X with
  | .error e => .error e
  | .ok yp => if yp.length = y.length then .ok (accuracy_score y yp) else .error .ShapeMismatchError

/-- Modelled from the spec: predict with explicit state passing.  The spec
states that the only state is the fitted parameters held privately by each
stage and that predict only reads them, so the returned pipeline state is the
input pipeline. -/
def Pipeline.predictSt (p : Pipeline) (X : Dataset) : Except PipeError (Labels × Pipeline) :=
  match p.fitted with
  | none => .error .NotFittedError
  | some st => .ok (st.predictRun X, p)

/-- Modelled from the spec: score with explicit state passing; like predict it
only reads the fitted parameters. -/
def Pipeline.scoreSt (p : Pipeline) (X : Dataset) (y : Labels) : Except PipeError (ℚ × Pipeline) :=
  match p.score X y with
  | .error e => .error e
  | .ok a => .ok (a, p)

/-- Whether a stage unit is an Estimator. -/
def StageUnit.isEstimator : StageUnit → Bool
  | .estimator _ => true
  | .transformer _ => false

/-- Whether the final stage of a stage list is an Estimator. -/
def lastIsEstimator (stages : List Stage) : Bool :=
  match stages.getLast? with
  | some s => s.2.isEstimator
  | none => false

/-- A transformer preserves the instance count of every dataset it transforms,
whatever data it was fitted on.  This is the spec's data-model reading of a
Transformer: Dataset to Dataset over the same instances. -/
def Transformer.preservesCount (t : Transformer) : Prop :=
  ∀ train X, (t.fit train X).length = X.length

/-- An estimator produces one label prediction per instance, whatever data it
was fitted on.  This is the spec's data-model reading of Label: one
categorical value per instance, aligned by index. -/
def Estimator.onePerInstance (e : Estimator) : Prop :=
  ∀ train labels X, (e.fit train labels X).length = X.length

/-- Well-formedness of a stage unit: the data-model contract for its kind. -/
def StageUnit.wellFormed : StageUnit → Prop
  | .transformer t => t.preservesCount
  | .estimator e => e.onePerInstance

/-- Well-formedness of all stages of a pipeline. -/
def Pipeline.wellFormedStages (p : Pipeline) : Prop :=
  ∀ s ∈ p.stages, s.2.wellFormed

/-- Reference description of the fitted transforms produced by the fitting
pass: each Transformer stage contributes, in stage order, its transform fitted
on the intermediate dataset current when that stage is reached. -/
def fittedTransformList : List Stage → Dataset → List (Dataset → Dataset)
  | [], _ => []
  | (_, .transformer t) :: rest, X => t.fit X :: fittedTransformList rest (t.fit X X)
  | (_, .estimator _) :: rest, X => fittedTransformList rest X

/-- The intermediate datasets seen during the fitting pass, starting from the
input dataset and recording the dataset after each Transformer stage. -/
def fitIntermediates : List Stage → Dataset → List Dataset
  | [], X => [X]
  | (_, .transformer t) :: rest, X => X :: fitIntermediates rest (t.fit X X)
  | (_, .estimator _) :: rest, X => X :: fitIntermediates rest X

/-- The identity transform of the spec's perfect-classifier example. -/
def idTransformer : Transformer := ⟨fun _ => fun D => D⟩

/-- Label lookup for the lookup-table estimator: the label paired with the
first training instance equal to the queried instance, defaulting to 0. -/
def lookupLabel (train : Dataset) (labels : Labels) (inst : Instance) : Label :=
  match (train.zip labels).find? (fun q => q.1 == inst) with
  | some q => q.2
  | none => 0

/-- The lookup-table estimator of the spec's perfect-classifier example:
it maps each training instance to its own label. -/
def lookupEstimator : Estimator :=
  ⟨fun train labels => fun D => D.map (lookupLabel train labels)⟩

/-- Squared euclidean distance between two instances, over zipped positions. -/
def dist2 (a b : Instance) : Int :=
  ((a.zip b).map fun q => (q.1 - q.2) * (q.1 - q.2)).sum

/-- Nearest-neighbour label: the label of the training instance closest to the
queried instance (first minimiser wins), defaulting to 0 on empty training. -/
def nnLabel (train : Dataset) (labels : Labels) (inst : Instance) : Label :=
  match (train.zip labels).foldl
      (fun best q =>
        match best with
        | none => some q
        | some b => if dist2 q.1 inst < dist2 b.1 inst then some q else some b)
      none with
  | some q => q.2
  | none => 0

/-- The nearest-neighbour-to-training-label estimator of the spec's concrete
example. -/
def nnEstimator : Estimator :=
  ⟨fun train labels => fun D => D.map (nnLabel train labels)⟩

/-- The concrete stage list of the perfect-classifier demonstrations: an
identity transform followed by the lookup-table estimator. -/
def demoStages : List Stage :=
  [("identity", .transformer idTransformer), ("lookup", .estimator lookupEstimator)]

/-- The perfect-classifier pipeline of the spec: identity transform plus
lookup-table estimator, before fit. -/
def lookupPipeline : Pipeline := Pipeline.ofStages demoStages

/-- The pipeline of the spec's concrete example: identity transform plus
nearest-neighbour-to-training-label estimator, before fit. -/
def nnPipeline : Pipeline :=
  Pipeline.ofStages [("identity", .transformer idTransformer), ("nn", .estimator nnEstimator)]

/-- The spec's concrete example training dataset: 3 instances of length 5. -/
def exX : Dataset := [[0, 0, 0, 0, 0], [10, 10, 10, 10, 10], [20, 20, 20, 20, 20]]

/-- The spec's concrete example labels. -/
def exY : Labels := [0, 1, 0]

/-- A small training dataset used to instantiate proved theorems. -/
def demoX : Dataset := [[1], [2]]

/-- Labels parallel to the small training dataset. -/
def demoY : Labels := [0, 1]

/-- A second training dataset, used for the refitting instantiation. -/
def demoX2 : Dataset := [[3], [4], [5]]

/-- Labels parallel to the second training dataset. -/
def demoY2 : Labels := [1, 0, 1]

/-- A pipeline that is already fitted, with a constant-zero predict step. -/
def demoFitted : Pipeline := ⟨demoStages, some ⟨[fun D => D], fun D => D.map fun _ => 0⟩⟩

/-- A fitted pipeline whose predict step drops every instance, so its
prediction count never matches a nonempty label collection. -/
def demoBad : Pipeline := ⟨demoStages, some ⟨[], fun _ => []⟩⟩

/-- Mapping an Except value does not change which error it carries. -/
lemma except_map_eq_error {A B : Type} (f : A → B) (x : Except PipeError A) (e : PipeError) :
    x.map f = .error e ↔ x = .error e := by
  cases x <;> simp [Except.map]

/-- The fitting pass fails with ConfigurationError exactly when the stage list
is empty or its final stage is not an Estimator. -/
lemma fitRun_config_iff : ∀ (stages : List Stage) (X : Dataset) (y : Labels),
    (fitRun stages X y = .error .ConfigurationError) ↔
      (stages = [] ∨ lastIsEstimator stages = false) := by
  intro stages
  induction stages with
  | nil =>
    intro X y
    simp [fitRun, lastIsEstimator]
  | cons hd tl ih =>
    intro X y
    obtain ⟨nm, u⟩ := hd
    cases u with
    | transformer t =>
      cases tl with
      | nil => simp [fitRun, lastIsEstimator, StageUnit.isEstimator]
      | cons s rest =>
        rw [show fitRun ((nm, StageUnit.transformer t) :: s :: rest) X y
              = (fitRun (s :: rest) (t.fit X X) y).map
                  (fun st => ⟨t.fit X :: st.transforms, st.predictFn⟩) from rfl,
            except_map_eq_error, ih]
        simp [lastIsEstimator, List.getLast?_cons_cons]
    | estimator e =>
      cases tl with
      | nil => simp [fitRun, lastIsEstimator, StageUnit.isEstimator]
      | cons s rest =>
        rw [show fitRun ((nm, StageUnit.estimator e) :: s :: rest) X y
              = fitRun (s :: rest) X y from rfl, ih]
        simp [lastIsEstimator, List.getLast?_cons_cons]

/-- Folding a list of instance-count-preserving transforms over a dataset
preserves the instance count. -/
lemma applyInOrder_length (fts : List (Dataset → Dataset))
    (h : ∀ f ∈ fts, ∀ D, (f D).length = D.length) (X : Dataset) :
    (applyInOrder fts X).length = X.length := by
  induction fts generalizing X with
  | nil => rfl
  | cons f l ih =>
    rw [show applyInOrder (f :: l) X = applyInOrder l (f X) from rfl]
    rw [ih (fun g hg => h g (List.mem_cons_of_mem f hg)) (f X)]
    exact h f (List.mem_cons_self f l) X

/-- When fitting succeeds on well-formed stages, every stored fitted transform
preserves instance counts and the stored predict step emits one label per
instance. -/
lemma fitRun_ok_lengths :
    ∀ (stages : List Stage) (X : Dataset) (y : Labels) (st : FittedState),
    (∀ s ∈ stages, s.2.wellFormed) → fitRun stages X y = .ok st →
    (∀ f ∈ st.transforms, ∀ D, (f D).length = D.length) ∧
      (∀ D, (st.predictFn D).length = D.length) := by
  intro stages
  induction stages with
  | nil => intro X y st _ h; simp [fitRun] at h
  | cons hd tl ih =>
    intro X y st hwf h
    obtain ⟨nm, u⟩ := hd
    cases u with
    | transformer t =>
      cases tl with
      | nil => simp [fitRun] at h
      | cons s rest =>
        rw [show fitRun ((nm, StageUnit.transformer t) :: s :: rest) X y
              = (fitRun (s :: rest) (t.fit X X) y).map
                  (fun st => ⟨t.fit X :: st.transforms, st.predictFn⟩) from rfl] at h
        cases hr : fitRun (s :: rest) (t.fit X X) y with
        | error e => rw [hr] at h; simp [Except.map] at h
        | ok st0 =>
          rw [hr] at h
          simp only [Except.map] at h
          have hst : st = ⟨t.fit X :: st0.transforms, st0.predictFn⟩ :=
            ((Except.ok.injEq _ _).mp h).symm
          have hwt : t.preservesCount :=
            hwf (nm, StageUnit.transformer t) (List.mem_cons_self _ _)
          have ih0 := ih (t.fit X X) y st0
            (fun s2 hs2 => hwf s2 (List.mem_cons_of_mem _ hs2)) hr
          subst hst
          refine ⟨?_, ih0.2⟩
          intro f hf D
          rcases List.mem_cons.mp hf with hf | hf
          · subst hf; exact hwt X D
          · exact ih0.1 f hf D
    | estimator e =>
      cases tl with
      | nil =>
        have hst : st = ⟨[], e.fit X y⟩ := by
          rw [show fitRun [(nm, StageUnit.estimator e)] X y
                = .ok ⟨[], e.fit X y⟩ from rfl] at h
          exact ((Except.ok.injEq _ _).mp h).symm
        have hwe : e.onePerInstance :=
          hwf (nm, StageUnit.estimator e) (List.mem_cons_self _ _)
        subst hst
        refine ⟨?_, fun D => hwe X y D⟩
        intro f hf
        simp at hf
      | cons s rest =>
        rw [show fitRun ((nm, StageUnit.estimator e) :: s :: rest) X y
              = fitRun (s :: rest) X y from rfl] at h
        exact ih X y st (fun s2 hs2 => hwf s2 (List.mem_cons_of_mem _ hs2)) h

/-- The inference pass preserves instance counts when all fitted parameters
do. -/
lemma predictRun_length (st : FittedState)
    (h1 : ∀ f ∈ st.transforms, ∀ D, (f D).length = D.length)
    (h2 : ∀ D, (st.predictFn D).length = D.length) (X : Dataset) :
    (st.predictRun X).length = X.length := by
  rw [show st.predictRun X = st.predictFn (applyInOrder st.transforms X) from rfl]
  rw [h2 (applyInOrder st.transforms X)]
  exact applyInOrder_length st.transforms h1 X

/-- Structure of a successful fitting pass: the stored fitted transforms are
exactly the Transformer stages' fitted transforms in stage order, and the
stored predict step is the final Estimator fitted on the fully transformed
training dataset. -/
lemma fitRun_ok_spec :
    ∀ (stages : List Stage) (X : Dataset) (y : Labels) (st : FittedState)
      (nm : String) (e : Estimator),
    stages.getLast? = some (nm, .estimator e) →
    fitRun stages X y = .ok st →
    st.transforms = fittedTransformList stages X ∧
      st.predictFn = e.fit (applyInOrder (fittedTransformList stages X) X) y := by
  intro stages
  induction stages with
  | nil => intro X y st nm e hl _; simp at hl
  | cons hd tl ih =>
    intro X y st nm e hl h
    obtain ⟨nm2, u⟩ := hd
    cases u with
    | transformer t =>
      cases tl with
      | nil => simp [fitRun] at h
      | cons s rest =>
        rw [List.getLast?_cons_cons] at hl
        rw [show fitRun ((nm2, StageUnit.transformer t) :: s :: rest) X y
              = (fitRun (s :: rest) (t.fit X X) y).map
                  (fun st => ⟨t.fit X :: st.transforms, st.predictFn⟩) from rfl] at h
        cases hr : fitRun (s :: rest) (t.fit X X) y with
        | error e2 => rw [hr] at h; simp [Except.map] at h
        | ok st0 =>
          rw [hr] at h
          simp only [Except.map] at h
          have hst : st = ⟨t.fit X :: st0.transforms, st0.predictFn⟩ :=
            ((Except.ok.injEq _ _).mp h).symm
          have ih0 := ih (t.fit X X) y st0 nm e hl hr
          subst hst
          constructor
          · rw [show fittedTransformList ((nm2, StageUnit.transformer t) :: s :: rest) X
                  = t.fit X :: fittedTransformList (s :: rest) (t.fit X X) from rfl]
            simp [ih0.1]
          · rw [show fittedTransformList ((nm2, StageUnit.transformer t) :: s :: rest) X
                  = t.fit X :: fittedTransformList (s :: rest) (t.fit X X) from rfl]
            rw [show applyInOrder (t.fit X :: fittedTransformList (s :: rest) (t.fit X X)) X
                  = applyInOrder (fittedTransformList (s :: rest) (t.fit X X)) (t.fit X X)
                from rfl]
            exact ih0.2
    | estimator e2 =>
      cases tl with
      | nil =>
        have he : nm2 = nm ∧ e2 = e := by
          rw [List.getLast?_singleton] at hl
          have h0 := (Option.some.injEq _ _).mp hl
          have h1 := (Prod.mk.injEq _ _ _ _).mp h0
          exact ⟨h1.1, by injection h1.2⟩
        obtain ⟨hnm, hee⟩ := he
        subst hnm; subst hee
        have hst : st = ⟨[], e2.fit X y⟩ := by
          rw [show fitRun [(nm2, StageUnit.estimator e2)] X y
                = .ok ⟨[], e2.fit X y⟩ from rfl] at h
          exact ((Except.ok.injEq _ _).mp h).symm
        subst hst
        exact ⟨rfl, rfl⟩
      | cons s rest =>
        rw [List.getLast?_cons_cons] at hl
        rw [show fitRun ((nm2, StageUnit.estimator e2) :: s :: rest) X y
              = fitRun (s :: rest) X y from rfl] at h
        have ih0 := ih X y st nm e hl h
        rw [show fittedTransformList ((nm2, StageUnit.estimator e2) :: s :: rest) X
              = fittedTransformList (s :: rest) X from rfl]
        exact ih0

/-- Every intermediate dataset of a fitting pass over well-formed stages has
the same instance count as the input dataset. -/
lemma fitIntermediates_length :
    ∀ (stages : List Stage) (X : Dataset),
    (∀ s ∈ stages, s.2.wellFormed) →
    ∀ D ∈ fitIntermediates stages X, D.length = X.length := by
  intro stages
  induction stages with
  | nil =>
    intro X _ D hD
    rw [show fitIntermediates [] X = [X] from rfl] at hD
    simp at hD
    rw [hD]
  | cons hd tl ih =>
    intro X hwf D hD
    obtain ⟨nm, u⟩ := hd
    cases u with
    | transformer t =>
      rw [show fitIntermediates ((nm, StageUnit.transformer t) :: tl) X
            = X :: fitIntermediates tl (t.fit X X) from rfl] at hD
      rcases List.mem_cons.mp hD with hD | hD
      · rw [hD]
      · have hwt : t.preservesCount :=
          hwf (nm, StageUnit.transformer t) (List.mem_cons_self _ _)
        have hrec := ih (t.fit X X) (fun s2 hs2 => hwf s2 (List.mem_cons_of_mem _ hs2)) D hD
        rw [hrec, hwt X X]
    | estimator e =>
      rw [show fitIntermediates ((nm, StageUnit.estimator e) :: tl) X
            = X :: fitIntermediates tl X from rfl] at hD
      rcases List.mem_cons.mp hD with hD | hD
      · rw [hD]
      · exact ih X (fun s2 hs2 => hwf s2 (List.mem_cons_of_mem _ hs2)) D hD

/-- Zipping a list with itself only produces pairs of equal components. -/
lemma zip_self_fst_eq_snd : ∀ {y : Labels} {q : Label × Label}, q ∈ y.zip y → q.1 = q.2 := by
  intro y
  induction y with
  | nil => intro q h; simp at h
  | cons a t ih =>
    intro q h
    rcases List.mem_cons.mp h with h | h
    · subst h; rfl
    · exact ih h

/-- Accuracy of a nonempty label collection against itself is 1. -/
lemma accuracy_self (y : Labels) (h : y ≠ []) : accuracy_score y y = 1 := by
  have hc : (y.zip y).countP (fun q => q.1 == q.2) = (y.zip y).length := by
    apply List.countP_eq_length.mpr
    intro q hq
    simpa using zip_self_fst_eq_snd hq
  have hz : (y.zip y).length = y.length := by simp
  have hlen : y.length ≠ 0 := by
    simpa [List.length_eq_zero] using h
  have hne : (y.length : ℚ) ≠ 0 := Nat.cast_ne_zero.mpr hlen
  simp [accuracy_score, hc, hz, div_self hne]

/-- The lookup-table estimator fitted on a dataset with consistent labels maps
every training instance back to its own label. -/
lemma lookup_map_self (X : Dataset) (y : Labels) (hlen : X.length = y.length)
    (hcons : ∀ a b b2, (a, b) ∈ X.zip y → (a, b2) ∈ X.zip y → b = b2) :
    X.map (lookupLabel X y) = y := by
  apply List.ext_getElem
  · simp [hlen]
  intro k hk1 hk2
  have hkX : k < X.length := by simpa using hk1
  have hkz : k < (X.zip y).length := by
    simp [List.length_zip, hlen]
    omega
  simp only [List.getElem_map]
  have hzk : (X.zip y)[k] = (X[k], y[k]) := List.getElem_zip
  have hmem : (X[k], y[k]) ∈ X.zip y := by
    rw [← hzk]
    exact List.getElem_mem hkz
  have hsome : ((X.zip y).find? (fun q => q.1 == X[k])).isSome := by
    apply List.find?_isSome.mpr
    exact ⟨(X[k], y[k]), hmem, by simp⟩
  obtain ⟨q, hq⟩ := Option.isSome_iff_exists.mp hsome
  obtain ⟨a, b⟩ := q
  have hq1 : (a == X[k]) = true := by
    have hp := List.find?_some hq
    simpa using hp
  have hq1e : a = X[k] := by simpa using hq1
  have hqmem : (a, b) ∈ X.zip y := List.mem_of_find?_eq_some hq
  rw [hq1e] at hqmem
  have hb : b = y[k] := hcons (X[k]) b (y[k]) hqmem hmem
  rw [show lookupLabel X y (X[k])
        = (match (X.zip y).find? (fun q => q.1 == X[k]) with
            | some q => q.2
            | none => 0) from rfl]
  rw [hq]
  exact hb

/-- All stages of the perfect-classifier pipeline satisfy their data-model
contracts. -/
lemma lookupPipeline_wellFormed : lookupPipeline.wellFormedStages := by
  intro s hs
  rcases List.mem_cons.mp hs with h | h
  · subst h
    exact fun train X => rfl
  · rcases List.mem_cons.mp h with h | h
    · subst h
      intro train labels X
      simp [lookupEstimator]
    · simp at h
/-- C1: for every Dataset/Label pair, fitting a pipeline of well-formed stages
on that pair and then predicting on the same Dataset returns exactly one
prediction per instance of the Dataset. -/
theorem spec_c1_fit_then_predict_count (p : Pipeline) (X : Dataset) (y : Labels)
    (hwf : p.wellFormedStages) (hok : (p.fit X y).isOk = true) :
    ∃ preds, ((p.fit X y).bind fun p2 => p2.predict X) = .ok preds ∧
      preds.length = X.length := by
  cases hr : fitRun p.stages X y with
  | error e =>
    rw [show p.fit X y
          = (fitRun p.stages X y).map (fun st => { p with fitted := some st }) from rfl,
        hr] at hok
    simp [Except.map, Except.isOk, Except.toBool] at hok
  | ok st =>
    have hfit : p.fit X y = .ok { p with fitted := some st } := by
      rw [show p.fit X y
            = (fitRun p.stages X y).map (fun st => { p with fitted := some st }) from rfl,
          hr]
      rfl
    have hl := fitRun_ok_lengths p.stages X y st hwf hr
    refine ⟨st.predictRun X, ?_, predictRun_length st hl.1 hl.2 X⟩
    rw [hfit]
    rfl

/-- Witness for C1 at a concrete pipeline and a concrete two-instance
dataset. -/
theorem spec_c1_witness :
    ∃ preds, ((lookupPipeline.fit demoX demoY).bind fun p2 => p2.predict demoX) = .ok preds ∧
      preds.length = demoX.length :=
  spec_c1_fit_then_predict_count lookupPipeline demoX demoY lookupPipeline_wellFormed (by rfl)

/-- C2: for every fitted pipeline and test pair whose prediction and label
counts match, score equals running predict and then taking the fraction of
exact label matches. -/
theorem spec_c2_score_is_predict_accuracy (p : Pipeline) (X : Dataset) (y yp : Labels)
    (hp : p.predict X = .ok yp) (hl : yp.length = y.length) :
    p.score X y = .ok (accuracy_score y yp) := by
  rw [show p.score X y
        = (match p.predict X with
            | .error e => .error e
            | .ok yp2 =>
              if yp2.length = y.length then .ok (accuracy_score y yp2)
              else .error .ShapeMismatchError) from rfl,
      hp]
  simp [hl]

/-- Witness for C2 at a concrete fitted pipeline and test pair. -/
theorem spec_c2_witness :
    demoFitted.score demoX demoY = .ok (accuracy_score demoY [0, 0]) :=
  spec_c2_score_is_predict_accuracy demoFitted demoX demoY [0, 0] rfl rfl

/-- C3: calling predict on a pipeline on which fit has not been called fails
with NotFittedError, for every stage list and every input Dataset. -/
theorem spec_c3_predict_before_fit (stages : List Stage) (X : Dataset) :
    (Pipeline.ofStages stages).predict X = .error .NotFittedError := rfl

/-- C4: fit fails with ConfigurationError if and only if the stage list is
empty or its final stage is not an Estimator; in particular an empty stage
list always fails with ConfigurationError. -/
theorem spec_c4_fit_configuration_error_iff (p : Pipeline) (X : Dataset) (y : Labels) :
    ((p.fit X y = .error .ConfigurationError) ↔
      (p.stages = [] ∨ lastIsEstimator p.stages = false)) ∧
      (Pipeline.ofStages []).fit X y = .error .ConfigurationError := by
  constructor
  · rw [show p.fit X y
          = (fitRun p.stages X y).map (fun st => { p with fitted := some st }) from rfl,
        except_map_eq_error]
    exact fitRun_config_iff p.stages X y
  · rfl

/-- C5: score fails with ShapeMismatchError whenever the prediction count
differs from the label count, and the error is returned to the caller
unrecovered, also through the state-passing interface. -/
theorem spec_c5_score_shape_mismatch (p : Pipeline) (X : Dataset) (y yp : Labels)
    (hp : p.predict X = .ok yp) (hne : yp.length ≠ y.length) :
    p.score X y = .error .ShapeMismatchError ∧
      p.scoreSt X y = .error .ShapeMismatchError := by
  have h1 : p.score X y = .error .ShapeMismatchError := by
    rw [show p.score X y
          = (match p.predict X with
              | .error e => .error e
              | .ok yp2 =>
                if yp2.length = y.length then .ok (accuracy_score y yp2)
                else .error .ShapeMismatchError) from rfl,
        hp]
    simp [hne]
  refine ⟨h1, ?_⟩
  rw [show p.scoreSt X y
        = (match p.score X y with
            | .error e => .error e
            | .ok a => .ok (a, p)) from rfl,
      h1]

/-- Witness for C5 at a fitted pipeline whose prediction count is 0 against 2
labels. -/
theorem spec_c5_witness :
    demoBad.score demoX demoY = .error .ShapeMismatchError ∧
      demoBad.scoreSt demoX demoY = .error .ShapeMismatchError :=
  spec_c5_score_shape_mismatch demoBad demoX demoY [] rfl (by decide)

/-- C6: the perfect classifier (identity transform plus lookup-table
estimator) scores 1 on the nonempty, label-consistent training pair it was
fitted on; and on the spec's concrete example (3 instances of length 5,
labels 0, 1, 0, identity transform plus nearest-neighbour estimator) score on
the training data is 1. -/
theorem spec_c6_perfect_classifier_score_one :
    (∀ (X : Dataset) (y : Labels), X.length = y.length → X ≠ [] →
      (∀ a b b2, (a, b) ∈ X.zip y → (a, b2) ∈ X.zip y → b = b2) →
      ((lookupPipeline.fit X y).bind fun p2 => p2.score X y) = .ok 1) ∧
      ((nnPipeline.fit exX exY).bind fun p2 => p2.score exX exY) = .ok 1 := by
  constructor
  · intro X y hlen hne hcons
    have hpred : X.map (lookupLabel X y) = y := lookup_map_self X y hlen hcons
    have hy : y ≠ [] := by
      intro h0
      apply hne
      rw [h0] at hlen
      simpa [List.length_eq_zero] using hlen
    have h1 : ((lookupPipeline.fit X y).bind fun p2 => p2.score X y)
        = (if (X.map (lookupLabel X y)).length = y.length
            then .ok (accuracy_score y (X.map (lookupLabel X y)))
            else .error .ShapeMismatchError) := rfl
    rw [h1, hpred]
    simp [accuracy_self y hy]
  · have h : ((nnPipeline.fit exX exY).bind fun p2 => p2.score exX exY)
        = .ok (accuracy_score exY exY) := by rfl
    rw [h, accuracy_self]
    simp [exY]

/-- Witness for the quantified part of C6 at a concrete two-instance training
pair. -/
theorem spec_c6_witness :
    ((lookupPipeline.fit demoX demoY).bind fun p2 => p2.score demoX demoY) = .ok 1 :=
  spec_c6_perfect_classifier_score_one.1 demoX demoY rfl (by decide)
    (by
      intro a b b2 h1 h2
      simp [demoX, demoY] at h1 h2
      rcases h1 with ⟨ha, hb⟩ | ⟨ha, hb⟩ <;> rcases h2 with ⟨ha2, hb2⟩ | ⟨ha2, hb2⟩ <;>
        simp_all)

/-- C7: after a successful fit, predict applies the fitted transform of each
Transformer stage in stage order and then the final Estimator's predict step,
the Estimator having been fitted on the fully transformed training dataset. -/
theorem spec_c7_predict_applies_fitted_transforms_in_order (p : Pipeline)
    (Xtr : Dataset) (ytr : Labels) (nm : String) (e : Estimator)
    (hl : p.stages.getLast? = some (nm, .estimator e))
    (hok : (p.fit Xtr ytr).isOk = true) (X : Dataset) :
    ((p.fit Xtr ytr).bind fun p2 => p2.predict X)
      = .ok (e.fit (applyInOrder (fittedTransformList p.stages Xtr) Xtr) ytr
          (applyInOrder (fittedTransformList p.stages Xtr) X)) := by
  cases hr : fitRun p.stages Xtr ytr with
  | error e2 =>
    rw [show p.fit Xtr ytr
          = (fitRun p.stages Xtr ytr).map (fun st => { p with fitted := some st }) from rfl,
        hr] at hok
    simp [Except.map, Except.isOk, Except.toBool] at hok
  | ok st =>
    have hspec := fitRun_ok_spec p.stages Xtr ytr st nm e hl hr
    have hfit : p.fit Xtr ytr = .ok { p with fitted := some st } := by
      rw [show p.fit Xtr ytr
            = (fitRun p.stages Xtr ytr).map (fun st => { p with fitted := some st }) from rfl,
          hr]
      rfl
    rw [hfit]
    rw [show ((Except.ok { p with fitted := some st } : Except PipeError Pipeline).bind
          fun p2 => p2.predict X)
        = .ok (st.predictFn (applyInOrder st.transforms X)) from rfl]
    rw [hspec.1, hspec.2]

/-- Witness for C7 at the concrete perfect-classifier pipeline. -/
theorem spec_c7_witness :
    ((lookupPipeline.fit demoX demoY).bind fun p2 => p2.predict demoX)
      = .ok (lookupEstimator.fit
          (applyInOrder (fittedTransformList lookupPipeline.stages demoX) demoX) demoY
          (applyInOrder (fittedTransformList lookupPipeline.stages demoX) demoX)) :=
  spec_c7_predict_applies_fitted_transforms_in_order lookupPipeline demoX demoY
    "lookup" lookupEstimator rfl rfl demoX

/-- C8: on well-formed stages and a parallel training pair, every intermediate
dataset of the fitting pass keeps an instance count equal to the label count,
and after fit every prediction collection stays parallel to the dataset it
was predicted from. -/
theorem spec_c8_parallel_invariant_preserved (p : Pipeline) (X : Dataset) (y : Labels)
    (hwf : p.wellFormedStages) (hlen : X.length = y.length) :
    (∀ D ∈ fitIntermediates p.stages X, D.length = y.length) ∧
      (∀ p2, p.fit X y = .ok p2 →
        ∀ X2 preds, p2.predict X2 = .ok preds → preds.length = X2.length) := by
  constructor
  · intro D hD
    rw [fitIntermediates_length p.stages X hwf D hD]
    exact hlen
  · intro p2 hfit X2 preds hpred
    cases hr : fitRun p.stages X y with
    | error e =>
      rw [show p.fit X y
            = (fitRun p.stages X y).map (fun st => { p with fitted := some st }) from rfl,
          hr] at hfit
      simp [Except.map] at hfit
    | ok st =>
      have hp2 : p2 = { p with fitted := some st } := by
        rw [show p.fit X y
              = (fitRun p.stages X y).map (fun st => { p with fitted := some st }) from rfl,
            hr] at hfit
        simp only [Except.map] at hfit
        exact ((Except.ok.injEq _ _).mp hfit).symm
      subst hp2
      have hpr : preds = st.predictRun X2 := by
        rw [show ({ p with fitted := some st } : Pipeline).predict X2
              = .ok (st.predictRun X2) from rfl] at hpred
        exact ((Except.ok.injEq _ _).mp hpred).symm
      subst hpr
      have hlens := fitRun_ok_lengths p.stages X y st hwf hr
      exact predictRun_length st hlens.1 hlens.2 X2

/-- Witness for C8 at the concrete perfect-classifier pipeline and its
parallel training pair. -/
theorem spec_c8_witness :
    (∀ D ∈ fitIntermediates lookupPipeline.stages demoX, D.length = demoY.length) ∧
      (∀ p2, lookupPipeline.fit demoX demoY = .ok p2 →
        ∀ X2 preds, p2.predict X2 = .ok preds → preds.length = X2.length) :=
  spec_c8_parallel_invariant_preserved lookupPipeline demoX demoY
    lookupPipeline_wellFormed rfl

/-- C9: predict and score leave the pipeline state, and so the fitted
parameters of every stage, unchanged; a repeated predict on the same input
returns the same predictions. -/
theorem spec_c9_predict_score_no_mutation (p : Pipeline) (X : Dataset) (y : Labels)
    (r : Labels) (p2 : Pipeline) (h : p.predictSt X = .ok (r, p2)) :
    p2 = p ∧ p2.predictSt X = .ok (r, p) ∧
      (p.scoreSt X y).map Prod.snd = (p.scoreSt X y).map fun _ => p := by
  obtain ⟨stg, ft⟩ := p
  have hscore : (Pipeline.scoreSt ⟨stg, ft⟩ X y).map Prod.snd
      = (Pipeline.scoreSt ⟨stg, ft⟩ X y).map fun _ => (⟨stg, ft⟩ : Pipeline) := by
    cases hs : Pipeline.score ⟨stg, ft⟩ X y with
    | error e =>
      rw [show Pipeline.scoreSt ⟨stg, ft⟩ X y
            = (match Pipeline.score ⟨stg, ft⟩ X y with
                | .error e2 => .error e2
                | .ok a => .ok (a, (⟨stg, ft⟩ : Pipeline))) from rfl,
          hs]
      rfl
    | ok a =>
      rw [show Pipeline.scoreSt ⟨stg, ft⟩ X y
            = (match Pipeline.score ⟨stg, ft⟩ X y with
                | .error e2 => .error e2
                | .ok a2 => .ok (a2, (⟨stg, ft⟩ : Pipeline))) from rfl,
          hs]
      rfl
  cases ft with
  | none => exact Except.noConfusion h
  | some st =>
    have h2 : Except.ok (st.predictRun X, (⟨stg, some st⟩ : Pipeline)) = Except.ok (r, p2) := h
    have hpair := (Except.ok.injEq _ _).mp h2
    have hr1 : st.predictRun X = r := congrArg Prod.fst hpair
    have hp1 : (⟨stg, some st⟩ : Pipeline) = p2 := congrArg Prod.snd hpair
    refine ⟨hp1.symm, ?_, hscore⟩
    rw [← hp1]
    show Except.ok (st.predictRun X, (⟨stg, some st⟩ : Pipeline)) = .ok (r, ⟨stg, some st⟩)
    rw [hr1]

/-- Witness for C9 at a concrete fitted pipeline. -/
theorem spec_c9_witness :
    demoFitted = demoFitted ∧ demoFitted.predictSt demoX = .ok ([0, 0], demoFitted) ∧
      (demoFitted.scoreSt demoX demoY).map Prod.snd
        = (demoFitted.scoreSt demoX demoY).map fun _ => demoFitted :=
  spec_c9_predict_score_no_mutation demoFitted demoX demoY [0, 0] demoFitted rfl

/-- C10: fitting on one training pair and then refitting on a second pair
yields exactly the pipeline obtained by fitting only on the second pair, so
subsequent predictions depend only on the most recent fit. -/
theorem spec_c10_refit_overrides (p : Pipeline) (X1 : Dataset) (y1 : Labels)
    (X2 : Dataset) (y2 : Labels) (hok : (p.fit X1 y1).isOk = true) :
    ((p.fit X1 y1).bind fun p2 => p2.fit X2 y2) = p.fit X2 y2 := by
  obtain ⟨stg, ft⟩ := p
  cases hr : fitRun stg X1 y1 with
  | error e =>
    rw [show (⟨stg, ft⟩ : Pipeline).fit X1 y1
          = (fitRun stg X1 y1).map (fun st => ⟨stg, some st⟩) from rfl,
        hr] at hok
    simp [Except.map, Except.isOk, Except.toBool] at hok
  | ok st =>
    rw [show (⟨stg, ft⟩ : Pipeline).fit X1 y1
          = (fitRun stg X1 y1).map (fun st => ⟨stg, some st⟩) from rfl,
        hr]
    rfl

/-- Witness for C10 at the concrete perfect-classifier pipeline and two
concrete training pairs. -/
theorem spec_c10_witness :
    ((lookupPipeline.fit demoX demoY).bind fun p2 => p2.fit demoX2 demoY2)
      = lookupPipeline.fit demoX2 demoY2 :=
  spec_c10_refit_overrides lookupPipeline demoX demoY demoX2 demoY2 rfl

end SktimePipeline
